import Mathlib

/-!
Verification of the `tood` editor core: the line-classification / auto-sort
engine (`CodeEditor._sort_lines` in `app/ui/main_window.py`), the session
file-state model (`FileManager` in `app/core/file_manager.py`) and the
persistence store (`ConfigManager` in `app/config.py`), shallowly embedded
in Lean.

Python strings are modelled as `String` / `List Char`; lines of a text are
obtained by splitting on `'\n'` exactly as Python's `str.split("\n")` does.
The filesystem is modelled as an explicit record of functions.
-/

deriving instance DecidableEq for Except

namespace Tood

/-- A line of text, as a list of characters. -/
abbrev Line := List Char

/-- Python `str.rstrip()` whitespace, restricted to the ASCII whitespace
characters (space, tab, newline, carriage return, vertical tab, form feed).
Lines produced by splitting on newline contain no `'\n'`. -/
def pyIsSpace (c : Char) : Bool :=
  c = ' ' || c = '\t' || c = '\n' || c = '\r' || c = '\x0b' || c = '\x0c'

/-- Python `line.rstrip()`: drop trailing whitespace characters. -/
def rstrip (l : Line) : Line :=
  (l.reverse.dropWhile pyIsSpace).reverse

/-- Python `s.endswith(c)` for a single character `c`:
true iff the last character of `s` is `c`. -/
def lineEndsWith (l : Line) (c : Char) : Bool :=
  l.getLast? == some c

/-- The four line categories of the auto-sort engine. -/
inductive Cat where
  | minus
  | excl
  | normal
  | plus
deriving DecidableEq, Repr

/-- Classification of one line, as performed by the `elif` chain in
`CodeEditor._sort_lines` (`main_window.py` lines 290-299):
```
stripped = line.rstrip()
if stripped.endswith("-"): ...
elif stripped.endswith("!"): ...
elif stripped.endswith("+"): ...
else: ...
```
-/
def category (line : Line) : Cat :=
  let stripped := rstrip line
  if lineEndsWith stripped '-' then .minus
  else if lineEndsWith stripped '!' then .excl
  else if lineEndsWith stripped '+' then .plus
  else .normal

/-- The partition loop of `CodeEditor._sort_lines`: one pass over the lines,
appending each line to the list of its category (order within each category
preserved). -/
def partitionLines : List Line → List Line × List Line × List Line × List Line
  | [] => ([], [], [], [])
  | line :: rest =>
    let (m, e, n, p) := partitionLines rest
    match category line with
    | .minus => (line :: m, e, n, p)
    | .excl => (m, line :: e, n, p)
    | .plus => (m, e, n, line :: p)
    | .normal => (m, e, line :: n, p)

/-- Source: `sorted_lines = minus_lines + exclamation_lines + normal_lines + plus_lines`
(`main_window.py` line 302). -/
def sortLinesList (lines : List Line) : List Line :=
  let (m, e, n, p) := partitionLines lines
  m ++ e ++ n ++ p

/-- Python `text.split("\n")` worker: accumulates the current line in
reverse. -/
def splitNlAux : List Char → List Char → List Line
  | [], acc => [acc.reverse]
  | c :: cs, acc =>
    if c = '\n' then acc.reverse :: splitNlAux cs []
    else splitNlAux cs (c :: acc)

/-- Python `text.split("\n")`. Always returns at least one line
(`"".split("\n") == [""]`). -/
def splitNl (s : List Char) : List Line :=
  splitNlAux s []

/-- Python `"\n".join(lines)`. -/
def joinNl : List Line → List Char
  | [] => []
  | [l] => l
  | l :: l' :: ls => l ++ '\n' :: joinNl (l' :: ls)

/-- The pure text part of `CodeEditor._sort_lines`:
split into lines, partition by category, rejoin. -/
def sortText (t : String) : String :=
  (joinNl (sortLinesList (splitNl t.data))).asString

/-- Python `list.index(x)` wrapped in `try/except ValueError`:
the index of the first element equal to `x`, if any. -/
def pyIndex {α : Type} [DecidableEq α] : List α → α → Option Nat
  | [], _ => none
  | a :: rest, x =>
    if a = x then some 0 else (pyIndex rest x).map (· + 1)

/-- The state of the editing surface: full text plus cursor position
(`blockNumber`, `positionInBlock` in Qt terms). -/
structure EditorState where
  text : String
  cursorLine : Nat
  cursorCol : Nat
deriving DecidableEq, Repr

/-- Model of `CodeEditor._sort_lines` (`main_window.py` lines 263-325) as a state
transformer on the editing surface.

* `lines = current_text.split("\n")` is never empty, so the
  `if not lines: return` guard is kept but dead.
* `old_line_text` is `""` unless the cursor's block number indexes a line.
* When the new text equals the current text nothing is mutated.
* Otherwise `setPlainText` replaces the text; Qt resets the cursor to the
  start of the document, which is where it stays unless the code then
  relocates it.  The relocation runs only under `if old_line_text:`, i.e.
  only when the captured line text is non-empty; `new_lines.index`
  failure (`ValueError`) also leaves the cursor at the document start
  (`QTextCursor(self.document())`). -/
def sortLinesOp (st : EditorState) : EditorState :=
  let lines := splitNl st.text.data
  if lines.isEmpty then st
  else
    let old_line_text : Line :=
      if st.cursorLine < lines.length then lines.getD st.cursorLine [] else []
    let sorted_lines := sortLinesList lines
    let new_text := (joinNl sorted_lines).asString
    if new_text = st.text then st
    else
      let new_lines := splitNl new_text.data
      if old_line_text.isEmpty then
        { text := new_text, cursorLine := 0, cursorCol := 0 }
      else
        match pyIndex new_lines old_line_text with
        | some i =>
          { text := new_text, cursorLine := i,
            cursorCol := min st.cursorCol (new_lines.getD i []).length }
        | none => { text := new_text, cursorLine := 0, cursorCol := 0 }

/-! ### Lemmas about the sort core -/

/-- The partition loop collects, in order, exactly the lines of each
category. -/
theorem partitionLines_eq_filters (ls : List Line) :
    partitionLines ls =
      (ls.filter (fun l => decide (category l = .minus)),
       ls.filter (fun l => decide (category l = .excl)),
       ls.filter (fun l => decide (category l = .normal)),
       ls.filter (fun l => decide (category l = .plus))) := by
  induction ls with
  | nil => rfl
  | cons l rest ih =>
    cases hcat : category l <;>
      simp [partitionLines, ih, hcat, List.filter_cons]

theorem sortLinesList_eq_filters (ls : List Line) :
    sortLinesList ls =
      ls.filter (fun l => decide (category l = .minus)) ++
      ls.filter (fun l => decide (category l = .excl)) ++
      ls.filter (fun l => decide (category l = .normal)) ++
      ls.filter (fun l => decide (category l = .plus)) := by
  simp [sortLinesList, partitionLines_eq_filters]

theorem mem_of_mem_sortLinesList {l : Line} {ls : List Line}
    (h : l ∈ sortLinesList ls) : l ∈ ls := by
  rw [sortLinesList_eq_filters] at h
  simp only [List.mem_append, List.mem_filter] at h
  rcases h with ((h | h) | h) | h <;> exact h.1

theorem length_sortLinesList (ls : List Line) :
    (sortLinesList ls).length = ls.length := by
  induction ls with
  | nil => rfl
  | cons l rest ih =>
    cases hcat : category l <;>
      simp_all [sortLinesList_eq_filters, List.filter_cons, hcat] <;> omega

theorem filter_cat_self (c : Cat) (ls : List Line) :
    (ls.filter (fun l => decide (category l = c))).filter
      (fun l => decide (category l = c)) =
      ls.filter (fun l => decide (category l = c)) := by
  apply List.filter_eq_self.mpr
  intro a ha
  exact of_decide_eq_true (List.mem_filter.mp ha).2 |> decide_eq_true

theorem filter_cat_ne (c c' : Cat) (h : c ≠ c') (ls : List Line) :
    (ls.filter (fun l => decide (category l = c'))).filter
      (fun l => decide (category l = c)) = [] := by
  apply List.filter_eq_nil_iff.mpr
  intro a ha hc
  have h1 : category a = c' := of_decide_eq_true (List.mem_filter.mp ha).2
  have h2 : category a = c := of_decide_eq_true hc
  exact h (h2 ▸ h1 ▸ rfl)

/-- Sorting an already-sorted line list changes nothing. -/
theorem sortLinesList_idem (ls : List Line) :
    sortLinesList (sortLinesList ls) = sortLinesList ls := by
  conv_lhs => rw [sortLinesList_eq_filters (sortLinesList ls)]
  rw [sortLinesList_eq_filters ls]
  simp only [List.filter_append, filter_cat_self,
    filter_cat_ne _ _ (by simp : Cat.minus ≠ Cat.excl),
    filter_cat_ne _ _ (by simp : Cat.minus ≠ Cat.normal),
    filter_cat_ne _ _ (by simp : Cat.minus ≠ Cat.plus),
    filter_cat_ne _ _ (by simp : Cat.excl ≠ Cat.minus),
    filter_cat_ne _ _ (by simp : Cat.excl ≠ Cat.normal),
    filter_cat_ne _ _ (by simp : Cat.excl ≠ Cat.plus),
    filter_cat_ne _ _ (by simp : Cat.normal ≠ Cat.minus),
    filter_cat_ne _ _ (by simp : Cat.normal ≠ Cat.excl),
    filter_cat_ne _ _ (by simp : Cat.normal ≠ Cat.plus),
    filter_cat_ne _ _ (by simp : Cat.plus ≠ Cat.minus),
    filter_cat_ne _ _ (by simp : Cat.plus ≠ Cat.excl),
    filter_cat_ne _ _ (by simp : Cat.plus ≠ Cat.normal)]
  simp

/-! ### Split / join lemmas -/

theorem splitNlAux_append {l : List Char} (hl : '\n' ∉ l) :
    ∀ (s acc : List Char),
      splitNlAux (l ++ s) acc = splitNlAux s (l.reverse ++ acc) := by
  induction l with
  | nil => intro s acc; simp
  | cons c l ih =>
    intro s acc
    have hc : ¬(c = '\n') := fun h => hl (h ▸ List.mem_cons_self c l)
    have hl' : '\n' ∉ l := fun h => hl (List.mem_cons_of_mem c h)
    simp only [List.cons_append, splitNlAux, if_neg hc]
    rw [List.append_eq, ih hl']
    simp

theorem splitNlAux_no_nl {l : List Char} (hl : '\n' ∉ l) (acc : List Char) :
    splitNlAux l acc = [acc.reverse ++ l] := by
  have := splitNlAux_append hl [] acc
  simpa [splitNlAux] using this

/-- Joining with `"\n"` then `split("\n")` restores a non-empty list of
newline-free lines. -/
theorem splitNl_joinNl {ls : List Line} (hne : ls ≠ [])
    (hnl : ∀ l ∈ ls, '\n' ∉ l) : splitNl (joinNl ls) = ls := by
  induction ls with
  | nil => exact absurd rfl hne
  | cons l rest ih =>
    cases rest with
    | nil =>
      have : '\n' ∉ l := hnl l (List.mem_cons_self l [])
      simp [joinNl, splitNl, splitNlAux_no_nl this]
    | cons l' rest' =>
      have hlnl : '\n' ∉ l := hnl l (List.mem_cons_self _ _)
      have hrest : ∀ x ∈ l' :: rest', '\n' ∉ x := fun x hx =>
        hnl x (List.mem_cons_of_mem l hx)
      have ihr := ih (by simp) hrest
      simp only [joinNl, splitNl] at ihr ⊢
      rw [splitNlAux_append hlnl]
      simp [splitNlAux, ihr]

theorem splitNlAux_ne_nil (s acc : List Char) : splitNlAux s acc ≠ [] := by
  induction s generalizing acc with
  | nil => simp [splitNlAux]
  | cons c cs ih =>
    simp only [splitNlAux]
    split
    · simp
    · exact ih _

theorem splitNl_ne_nil (s : List Char) : splitNl s ≠ [] :=
  splitNlAux_ne_nil s []

theorem no_nl_of_mem_splitNlAux {s acc : List Char} (hacc : '\n' ∉ acc) :
    ∀ l ∈ splitNlAux s acc, '\n' ∉ l := by
  induction s generalizing acc with
  | nil =>
    intro l hl
    simp only [splitNlAux, List.mem_singleton] at hl
    subst hl
    simpa using hacc
  | cons c cs ih =>
    intro l hl
    simp only [splitNlAux] at hl
    by_cases hc : c = '\n'
    · rw [if_pos hc] at hl
      rcases List.mem_cons.mp hl with h | h
      · subst h; simpa using hacc
      · exact ih (by simp) l h
    · rw [if_neg hc] at hl
      have hca : '\n' ∉ c :: acc := by
        intro hmem
        rcases List.mem_cons.mp hmem with h | h
        · exact hc h.symm
        · exact hacc h
      exact ih hca l hl

theorem no_nl_of_mem_splitNl {s : List Char} :
    ∀ l ∈ splitNl s, '\n' ∉ l :=
  no_nl_of_mem_splitNlAux (by simp)

theorem data_asString (l : List Char) : (List.asString l).data = l := rfl

/-- The sorted text of any text is a fixed point of the text-level sort. -/
theorem sortText_idem (t : String) : sortText (sortText t) = sortText t := by
  unfold sortText
  rw [data_asString]
  have h1 : splitNl (joinNl (sortLinesList (splitNl t.data))) =
      sortLinesList (splitNl t.data) := by
    apply splitNl_joinNl
    · intro h
      have := length_sortLinesList (splitNl t.data)
      rw [h] at this
      exact splitNl_ne_nil t.data (List.length_eq_zero.mp this.symm)
    · intro l hl
      exact no_nl_of_mem_splitNl l (mem_of_mem_sortLinesList hl)
  rw [h1, sortLinesList_idem]

theorem splitNl_isEmpty (s : List Char) : (splitNl s).isEmpty = false := by
  cases h : splitNl s with
  | nil => exact absurd h (splitNl_ne_nil s)
  | cons a l => rfl

/-- Spec-side description of the classifier: the category as a function of
the last character remaining after stripping trailing whitespace. -/
def classifySpec (c? : Option Char) : Cat :=
  match c? with
  | none => .normal
  | some c =>
    if c = '-' then .minus
    else if c = '!' then .excl
    else if c = '+' then .plus
    else .normal

theorem rstrip_all_space {l : Line} (h : ∀ c ∈ l, pyIsSpace c = true) :
    rstrip l = [] := by
  unfold rstrip
  have hd : l.reverse.dropWhile pyIsSpace = [] :=
    List.dropWhile_eq_nil_iff.mpr (fun x hx => h x (List.mem_reverse.mp hx))
  rw [hd]
  rfl

/-- C1.  For every input text, the auto-sort splits it into lines and
outputs exactly the Minus-classified lines (in input order), then the
Exclamation lines, then the Normal lines, then the Plus lines; and the
input lines `["b", "a-", "c!", "d", "e+"]` yield `["a-", "c!", "b", "d", "e+"]`. -/
theorem claim_C1 :
    (∀ t : String,
      sortText t =
        (joinNl
          ((splitNl t.data).filter (fun l => decide (category l = .minus)) ++
           (splitNl t.data).filter (fun l => decide (category l = .excl)) ++
           (splitNl t.data).filter (fun l => decide (category l = .normal)) ++
           (splitNl t.data).filter (fun l => decide (category l = .plus)))).asString) ∧
    sortText "b\na-\nc!\nd\ne+" = "a-\nc!\nb\nd\ne+" := by
  constructor
  · intro t
    unfold sortText
    rw [sortLinesList_eq_filters]
  · decide

/-- C2.  A line's category is determined solely by the last character
remaining after stripping trailing whitespace (`-`→Minus, `!`→Exclamation,
`+`→Plus, otherwise Normal); empty and all-whitespace lines are Normal,
and `"x+-"` is Minus (only the single trailing character counts). -/
theorem claim_C2 :
    (∀ l : Line, category l = classifySpec (rstrip l).getLast?) ∧
    (∀ l : Line, (∀ c ∈ l, pyIsSpace c = true) → category l = .normal) ∧
    category "".data = .normal ∧
    category "x+-".data = .minus := by
  refine ⟨?_, ?_, by decide, by decide⟩
  · intro l
    cases h : (rstrip l).getLast? with
    | none => simp [category, lineEndsWith, classifySpec, h]
    | some c => simp [category, lineEndsWith, classifySpec, h]
  · intro l h
    simp [category, lineEndsWith, rstrip_all_space h]

/-- C2 witness: a whitespace-only line is Normal. -/
theorem claim_C2_witness : category " \t ".data = .normal :=
  claim_C2.2.1 " \t ".data (by decide)

/-- C3.  The sort is idempotent on texts, and when the computed sorted text
equals the current text the operation leaves the whole editor state
(buffer and cursor) untouched. -/
theorem claim_C3 :
    (∀ t : String, sortText (sortText t) = sortText t) ∧
    (∀ st : EditorState,
      (joinNl (sortLinesList (splitNl st.text.data))).asString = st.text →
      sortLinesOp st = st) := by
  refine ⟨sortText_idem, ?_⟩
  intro st h
  simp [sortLinesOp, splitNl_isEmpty, h]

/-- C3 witness: on an already-sorted text the operation is the identity. -/
theorem claim_C3_witness :
    (joinNl (sortLinesList (splitNl ("a-\nb" : String).data))).asString = "a-\nb" ∧
    sortLinesOp ⟨"a-\nb", 0, 0⟩ = ⟨"a-\nb", 0, 0⟩ :=
  ⟨by decide, claim_C3.2 ⟨"a-\nb", 0, 0⟩ (by decide)⟩

/-- The sorted text `_sort_lines` computes for the current buffer. -/
def sortNewText (st : EditorState) : String :=
  (joinNl (sortLinesList (splitNl st.text.data))).asString

/-- The text of the line the cursor is on before sorting (`old_line_text`);
empty when the cursor's block number is out of range. -/
def capturedLine (st : EditorState) : Line :=
  let lines := splitNl st.text.data
  if st.cursorLine < lines.length then lines.getD st.cursorLine [] else []

/-- C7 (amended).  When the sort changes the text, the cursor is reattached
to the first new line equal to the captured line text, with the column
clamped, ONLY when that captured text is non-empty; when the captured text
is empty, or no new line matches, the cursor is reset to the document
start. -/
theorem claim_C7 (st : EditorState) (hch : sortNewText st ≠ st.text) :
    sortLinesOp st =
      if (capturedLine st).isEmpty then ⟨sortNewText st, 0, 0⟩
      else
        match pyIndex (splitNl (sortNewText st).data) (capturedLine st) with
        | some i =>
          ⟨sortNewText st, i,
            min st.cursorCol ((splitNl (sortNewText st).data).getD i []).length⟩
        | none => ⟨sortNewText st, 0, 0⟩ := by
  unfold sortNewText capturedLine at *
  simp only [sortLinesOp, splitNl_isEmpty, Bool.false_eq_true, if_false]
  rw [if_neg hch]

/-- C7 witness: a changing sort with a non-empty captured line relocates
the cursor to the first matching line, clamping the column. -/
theorem claim_C7_witness : sortLinesOp ⟨"a+\nb-", 0, 1⟩ = ⟨"b-\na+", 1, 1⟩ :=
  (claim_C7 ⟨"a+\nb-", 0, 1⟩ (by decide)).trans (by decide)

/-- C7 counterexample: cursor on an empty line (`"x\n\na-"`, line 1).  The
sort changes the text to `"a-\nx\n"`; the first new line equal to the
captured text `""` is line 2, but the code skips relocation for empty
captured text and the cursor ends at the document start (line 0). -/
theorem claim_C7_counterexample :
    sortLinesOp ⟨"x\n\na-", 1, 0⟩ = ⟨"a-\nx\n", 0, 0⟩ ∧
    pyIndex (splitNl ("a-\nx\n" : String).data) ([] : Line) = some 2 ∧
    (0 : Nat) ≠ 2 := by
  refine ⟨by decide, by decide, by decide⟩

/-! ### Paths and the filesystem model -/

/-- A `pathlib.Path`, modelled by its string form.  `Path("")` normalizes
to `Path('.')`; pathlib performs further mild normalization (dropping `.`
segments) that no claim here depends on, while `..` segments are kept
un-collapsed, exactly as pathlib keeps them. -/
abbrev PyPath := String

/-- The `Path(s)` constructor: the empty string normalizes to `"."`. -/
def mkPath (s : String) : PyPath :=
  if s = "" then "." else s

/-- Python truthiness of a `pathlib.Path`.  `PurePath` defines neither
`__bool__` nor `__len__`, so every `Path` object is truthy — including
`Path("")`, which is `Path('.')`. -/
def pathBool (_ : PyPath) : Bool := true

/-- The filesystem, as observed by the program:
* `read p` is the content of `p` when `p` exists, is a regular file and is
  readable (`Path.read_text` succeeds), `none` otherwise;
* `isDir p` is `p.exists() and p.is_dir()`;
* `writeOk p` tells whether `p.write_text` succeeds;
* `resolve p` is the canonicalized absolute path of `p`
  (`Path.resolve()`), used only to state claims about canonical paths. -/
structure FS where
  read : PyPath → Option String
  isDir : PyPath → Bool
  writeOk : PyPath → Bool
  resolve : PyPath → PyPath

/-- Effect of a successful `p.write_text(content)` on the filesystem. -/
def fsWrite (fs : FS) (p : PyPath) (content : String) : FS :=
  { fs with read := fun q => if q = p then some content else fs.read q }

/-! ### FileManager (`app/core/file_manager.py`) -/

/-- The mutable state of `FileManager`: the parallel `_files` / `_buffers`
lists and `_active_index`. -/
structure FMState where
  files : List PyPath
  buffers : List String
  active : Nat
deriving DecidableEq, Repr

/-- Model of `FileManager.open_file` (lines 40-61): if the path is already present
(compared by `Path` equality) activate it and return its index; otherwise
read the file (empty string on missing file or read failure), append, and
activate the new document. -/
def open_file (fs : FS) (st : FMState) (path : PyPath) : FMState × Nat :=
  match pyIndex st.files path with
  | some i => ({ st with active := i }, i)
  | none =>
    let text := (fs.read path).getD ""
    let files := st.files ++ [path]
    let buffers := st.buffers ++ [text]
    ({ files := files, buffers := buffers, active := files.length - 1 },
     files.length - 1)

/-- Model of `FileManager.new_file` (lines 63-70): append `Path("")` with an empty
buffer and activate it. -/
def new_file (st : FMState) : FMState × Nat :=
  let files := st.files ++ [mkPath ""]
  let buffers := st.buffers ++ [""]
  (⟨files, buffers, files.length - 1⟩, files.length - 1)

/-- Model of `FileManager.set_buffer` (lines 72-75): overwrite the buffer at the
given (or active) index; silent no-op when the index is out of range. -/
def set_buffer (st : FMState) (text : String) (index? : Option Int) : FMState :=
  let idx : Int := index?.getD (st.active : Int)
  if 0 ≤ idx ∧ idx < (st.buffers.length : Int) then
    { st with buffers := st.buffers.set idx.toNat text }
  else st

/-- The errors `save_file` can raise, named as in the spec:
`IndexError` → `noActiveDocument`, `ValueError("Не указан путь…")` →
`noTargetPath`, `ValueError("Нельзя сохранить в директорию…")` →
`targetIsDirectory`; an uncaught `write_text` failure is `writeFailed`. -/
inductive SaveErr where
  | noActiveDocument
  | noTargetPath
  | targetIsDirectory
  | writeFailed
deriving DecidableEq, Repr

/-- Model of `FileManager.save_file` (lines 77-93).  The returned `FMState` is the
state as left behind by the call, raised or not — in Python the rebinding
`self._files[idx] = path` survives a later exception.  Note that the
`if not target:` test can never succeed, because a `pathlib.Path` is
always truthy (`pathBool`). -/
def save_file (fs : FS) (st : FMState) (path? : Option PyPath)
    (index? : Option Int) : FMState × FS × Except SaveErr PyPath :=
  let idx : Int := index?.getD (st.active : Int)
  if idx < 0 ∨ (st.buffers.length : Int) ≤ idx then
    (st, fs, .error .noActiveDocument)
  else
    let n : Nat := idx.toNat
    let st1 :=
      match path? with
      | some p => { st with files := st.files.set n p }
      | none => st
    let target := st1.files.getD n (mkPath "")
    if pathBool target = false then (st1, fs, .error .noTargetPath)
    else if fs.isDir target then (st1, fs, .error .targetIsDirectory)
    else if fs.writeOk target then
      (st1, fsWrite fs target (st1.buffers.getD n ""), .ok target)
    else (st1, fs, .error .writeFailed)

/-- Model of `FileManager.close_file` (lines 95-103): remove the document at the
given (or active) index when valid; the new active index is
`max(0, idx - 1)` when documents remain, `0` when the list becomes empty. -/
def close_file (st : FMState) (index? : Option Int) : FMState :=
  let idx : Int := index?.getD (st.active : Int)
  if 0 ≤ idx ∧ idx < (st.files.length : Int) then
    let files := st.files.eraseIdx idx.toNat
    let buffers := st.buffers.eraseIdx idx.toNat
    { files := files, buffers := buffers,
      active := if files.isEmpty then 0 else idx.toNat - 1 }
  else st

/-- The typed session snapshot (`AppState` in `app/config.py`). -/
structure AppState where
  last_files : List String
  active_index : Int
  titles : List String
  buffers : List String
  font_size : Int
deriving DecidableEq, Repr

/-- Model of `FileManager._restore_from_config` (lines 107-141): rebuild one
document per snapshot entry (zipping `last_files` and `buffers` up to the
longer length), re-reading each non-empty path from disk and falling back
to the snapshot buffer; create one fresh document when the snapshot is
empty, else adopt the snapshot's active index when it is in range. -/
def restore_from_config (fs : FS) (cfg : AppState) : FMState :=
  let maxLen := max cfg.last_files.length cfg.buffers.length
  let entries := (List.range maxLen).map (fun i =>
    let p_str := cfg.last_files.getD i ""
    let buf := cfg.buffers.getD i ""
    let path := mkPath p_str
    let text :=
      if p_str ≠ "" then
        match fs.read path with
        | some t => t
        | none => buf
      else buf
    (path, text))
  let files := entries.map Prod.fst
  let buffers := entries.map Prod.snd
  if files.isEmpty then (new_file ⟨[], [], 0⟩).1
  else
    ⟨files, buffers,
      if 0 ≤ cfg.active_index ∧ cfg.active_index < (files.length : Int) then
        cfg.active_index.toNat
      else 0⟩

/-! ### ConfigManager (`app/config.py`) -/

/-- JSON values as produced by `json.load` (numbers restricted to
integers; non-integral numbers play no role in any claim). -/
inductive J where
  | null
  | b (v : Bool)
  | n (v : Int)
  | s (v : String)
  | arr (elems : List J)
  | obj (fields : List (String × J))

/-- Python `data.get(k, dflt)` on a JSON object's field list. -/
def dictGet (d : List (String × J)) (k : String) (dflt : J) : J :=
  match d.find? (fun kv => kv.fst == k) with
  | some kv => kv.snd
  | none => dflt

/-- Python `int(s)` on a string: optional sign and at least one digit,
surrounding whitespace stripped; `none` when `int` raises `ValueError`.
(Digit-group underscores accepted by Python are not modelled.) -/
def pyStrToInt (s : String) : Option Int :=
  let t := ((s.data.dropWhile pyIsSpace).reverse.dropWhile pyIsSpace).reverse
  let core : Option (Bool × List Char) :=
    match t with
    | '-' :: rest => some (true, rest)
    | '+' :: rest => some (false, rest)
    | rest => some (false, rest)
  match core with
  | some (neg, ds) =>
    if ds ≠ [] ∧ ds.all Char.isDigit then
      let v : Int := ds.foldl (fun a c => a * 10 + (c.toNat - '0'.toNat)) 0
      some (if neg then -v else v)
    else none
  | none => none

/-- Python `int(x)` on a JSON value; `none` when `int` raises. -/
def pyToInt : J → Option Int
  | .n v => some v
  | .b true => some 1
  | .b false => some 0
  | .s v => pyStrToInt v
  | _ => none

/-- The state `ConfigManager._load` builds.  Python performs no validation
of `last_files` / `titles` / `buffers`, so those fields hold whatever JSON
value `data.get` returned; only `active_index` and `font_size` are forced
through `int(...)`. -/
structure RawState where
  last_files : J
  active_index : Int
  titles : J
  buffers : J
  font_size : Int

/-- The default `AppState(last_files=[], active_index=0, titles=[],
buffers=[], font_size=12)`. -/
def defaultRaw : RawState :=
  ⟨.arr [], 0, .arr [], .arr [], 12⟩

/-- Whether a JSON value is an object (a Python `dict`); on anything else
`data.get` raises `AttributeError`. -/
def isObj : J → Bool
  | .obj _ => true
  | _ => false

/-- Model of `ConfigManager._load` (`config.py` lines 36-50).  Input:
* `none` — `CONFIG_FILE.exists()` is false (the initial default state is
  kept);
* `some none` — the file exists but reading or `json.load` raises;
* `some (some j)` — the file parsed to the JSON value `j`.
All exceptions are caught and replaced by the default state. -/
def config_load (input : Option (Option J)) : RawState :=
  match input with
  | none => defaultRaw
  | some none => defaultRaw
  | some (some j) =>
    match j with
    | .obj d =>
      match pyToInt (dictGet d "active_index" (.n 0)),
            pyToInt (dictGet d "font_size" (.n 12)) with
      | some ai, some fz =>
        ⟨dictGet d "last_files" (.arr []), ai,
         dictGet d "titles" (.arr []), dictGet d "buffers" (.arr []), fz⟩
      | _, _ => defaultRaw
    | _ => defaultRaw

/-- Whether a JSON value is an array of strings — the shape the snapshot
schema prescribes for `last_files`, `titles` and `buffers`. -/
def isStrArr : J → Bool
  | .arr xs => xs.all (fun x => match x with | .s _ => true | _ => false)
  | _ => false

/-! ### Call arities for `save_state` (`file_manager.py` line 143,
`config.py` line 52, `main_window.py` lines 893 and 913)

Python resolves argument counts at call time; a surplus or missing
positional argument raises `TypeError`.  The definitions record the
required positional parameter count (excluding `self`) of each method and
the argument counts at the call sites in the repository. -/

/-- A Python function signature: its required positional parameters
(`self` excluded; none of the modelled methods has defaults for these). -/
structure PyDef where
  nparams : Nat
deriving DecidableEq, Repr

/-- A Python positional call binds without `TypeError` iff the argument
count matches the required parameter count. -/
def pyCallOk (f : PyDef) (nargs : Nat) : Bool :=
  nargs == f.nparams

/-- Signature of `FileManager.save_state(self, titles)` — one required parameter. -/
def save_state_def : PyDef := ⟨1⟩

/-- Signature of `ConfigManager.save(self, last_files, active_index, titles, buffers,
font_size)` — five required parameters. -/
def config_save_def : PyDef := ⟨5⟩

/-- Both `MainWindow._on_font_size_changed` (line 893) and
`MainWindow.closeEvent` (line 913) call
`self._file_manager.save_state(titles, font_size)` — two arguments. -/
def save_state_call_nargs : Nat := 2

/-- Call site: `FileManager.save_state` forwards
`self._config.save(self._files, self._active_index, titles,
self._buffers)` — four arguments (line 147). -/
def config_save_call_nargs : Nat := 4

/-! ### Helper lemmas for list lookups -/

theorem pyIndex_lt_length {α : Type} [DecidableEq α] {l : List α} {x : α}
    {i : Nat} (h : pyIndex l x = some i) : i < l.length := by
  induction l generalizing i with
  | nil => simp [pyIndex] at h
  | cons a rest ih =>
    by_cases hax : a = x
    · rw [pyIndex, if_pos hax] at h
      injection h with h'
      subst h'
      simp
    · rw [pyIndex, if_neg hax] at h
      cases hrest : pyIndex rest x with
      | none => rw [hrest] at h; simp at h
      | some j =>
        rw [hrest] at h
        simp only [Option.map_some'] at h
        injection h with h'
        subst h'
        have := ih hrest
        simp only [List.length_cons]
        omega

theorem pyIndex_eq_none_of_not_mem {α : Type} [DecidableEq α] {l : List α}
    {x : α} (h : x ∉ l) : pyIndex l x = none := by
  induction l with
  | nil => rfl
  | cons a rest ih =>
    have hax : ¬(a = x) := fun he => h (he ▸ List.mem_cons_self a rest)
    have hr : x ∉ rest := fun hm => h (List.mem_cons_of_mem a hm)
    simp [pyIndex, hax, ih hr]

theorem pyIndex_append_self {α : Type} [DecidableEq α] {l : List α} {x : α}
    (h : x ∉ l) : pyIndex (l ++ [x]) x = some l.length := by
  induction l with
  | nil => simp [pyIndex]
  | cons a rest ih =>
    have hax : ¬(a = x) := fun he => h (he ▸ List.mem_cons_self a rest)
    have hr : x ∉ rest := fun hm => h (List.mem_cons_of_mem a hm)
    simp [pyIndex, hax, ih hr]

theorem getElem?_set_self {α : Type} (l : List α) (i : Nat) (a : α)
    (h : i < l.length) : (l.set i a)[i]? = some a := by
  induction l generalizing i with
  | nil => simp at h
  | cons b rest ih =>
    cases i with
    | zero => simp
    | succ j =>
      simp only [List.set_cons_succ, List.getElem?_cons_succ]
      exact ih j (by simpa using h)

/-! ### Claims C4, C6, C10 -/

/-- C4.  The claim says every font-size change and shutdown passes paths,
titles, buffers, active index and font size through
`FileManager.save_state` to the store's `save`.  In the code this cannot
happen: both call sites pass two arguments to a `save_state` declared with
one, and `save_state` itself forwards four arguments to a
`ConfigManager.save` that requires five — each call raises `TypeError`. -/
theorem claim_C4 :
    pyCallOk save_state_def save_state_call_nargs = false ∧
    pyCallOk config_save_def config_save_call_nargs = false := by
  decide

/-- The filesystem at the C6 failing input: the working directory `"."`
exists and is a directory (as it always is when the program runs). -/
def fs6 : FS :=
  { read := fun _ => none
    isDir := fun p => p = "."
    writeOk := fun _ => true
    resolve := fun p => p }

/-- C6.  `save_file()` with no path on a freshly created untitled document
(`new_file` stores `Path("")`, which pathlib normalizes to `Path('.')`)
raises `TargetIsDirectory`, not `NoTargetPath`: a `pathlib.Path` is always
truthy, so the "no target path" branch is dead, and `'.'` exists as a
directory.  With an out-of-range index `save_file` does raise
`NoActiveDocument`, as claimed. -/
theorem claim_C6 :
    (save_file fs6 (new_file ⟨[], [], 0⟩).1 none none).2.2 =
      .error .targetIsDirectory ∧
    (save_file fs6 (new_file ⟨[], [], 0⟩).1 none none).2.2 ≠
      .error .noTargetPath ∧
    (save_file fs6 ⟨[], [], 0⟩ none none).2.2 = .error .noActiveDocument := by
  refine ⟨by decide, by decide, by decide⟩

/-- C10.  When `save_file` is given an explicit path and a valid index,
the document's stored path is rebound to that path before any validation
runs, and it stays rebound whatever the call's outcome — also when the
call ends in an error. -/
theorem claim_C10 (fs : FS) (st : FMState) (p : PyPath) (idx : Int)
    (h0 : 0 ≤ idx) (h1 : idx < (st.buffers.length : Int))
    (h2 : st.files.length = st.buffers.length) :
    (save_file fs st (some p) (some idx)).1.files[idx.toNat]? = some p := by
  have hnot : ¬(idx < 0 ∨ (st.buffers.length : Int) ≤ idx) := by omega
  have hlt : idx.toNat < st.files.length := by omega
  simp only [save_file, Option.getD_some, if_neg hnot]
  split_ifs <;> simp [getElem?_set_self _ _ _ hlt]

/-- The filesystem at the C10 witness: the rebinding target `"/etc"` is an
existing directory, so the save fails after rebinding. -/
def fs10 : FS :=
  { read := fun _ => none
    isDir := fun p => p = "/etc"
    writeOk := fun _ => true
    resolve := fun p => p }

/-- C10 witness: rebinding to a directory path fails with
`TargetIsDirectory`, yet the document's path remains rebound. -/
theorem claim_C10_witness :
    (save_file fs10 ⟨["/old"], ["buf"], 0⟩ (some "/etc") (some 0)).1.files[(0 : Int).toNat]? =
      some "/etc" ∧
    (save_file fs10 ⟨["/old"], ["buf"], 0⟩ (some "/etc") (some 0)).2.2 =
      .error .targetIsDirectory :=
  ⟨claim_C10 fs10 ⟨["/old"], ["buf"], 0⟩ "/etc" 0 (by decide) (by decide) (by decide),
   by decide⟩

/-! ### Claim C5 -/

/-- C5 (amended).  `open_file` deduplicates by literal `pathlib.Path`
equality, not by canonicalized/absolute path: when some document's path
is equal to the argument, the first such index is returned and made
active with no other change; otherwise the file's text is read (empty
string, silently, when the read fails or the file does not exist), a new
document is appended and made active, and its index returned — so opening
the same literal path twice yields the same index both times and grows
the document count by exactly one. -/
theorem claim_C5 :
    (∀ (fs : FS) (st : FMState) (p : PyPath) (i : Nat),
      pyIndex st.files p = some i →
      open_file fs st p = ({ st with active := i }, i)) ∧
    (∀ (fs : FS) (st : FMState) (p : PyPath), p ∉ st.files →
      open_file fs st p =
        (⟨st.files ++ [p], st.buffers ++ [(fs.read p).getD ""],
          st.files.length⟩, st.files.length)) ∧
    (∀ (fs : FS) (st : FMState) (p : PyPath), p ∉ st.files →
      (open_file fs (open_file fs st p).1 p).2 = (open_file fs st p).2 ∧
      (open_file fs st p).1.files.length = st.files.length + 1 ∧
      (open_file fs (open_file fs st p).1 p).1.files.length =
        (open_file fs st p).1.files.length) := by
  have hfresh : ∀ (fs : FS) (st : FMState) (p : PyPath), p ∉ st.files →
      open_file fs st p =
        (⟨st.files ++ [p], st.buffers ++ [(fs.read p).getD ""],
          st.files.length⟩, st.files.length) := by
    intro fs st p hp
    simp [open_file, pyIndex_eq_none_of_not_mem hp]
  refine ⟨?_, hfresh, ?_⟩
  · intro fs st p i h
    simp [open_file, h]
  · intro fs st p hp
    rw [hfresh fs st p hp]
    have hsecond :
        open_file fs
          ⟨st.files ++ [p], st.buffers ++ [(fs.read p).getD ""],
            st.files.length⟩ p =
          ({ files := st.files ++ [p],
             buffers := st.buffers ++ [(fs.read p).getD ""],
             active := st.files.length }, st.files.length) := by
      simp [open_file, pyIndex_append_self hp]
    rw [hsecond]
    simp

/-- C5 witness: opening an already-open literal path activates it without
appending; opening a fresh path appends it with the read text. -/
theorem claim_C5_witness :
    open_file fs6 ⟨["a"], ["t"], 0⟩ "a" = (⟨["a"], ["t"], 0⟩, 0) ∧
    open_file fs6 ⟨["a"], ["t"], 0⟩ "b" = (⟨["a", "b"], ["t", ""], 1⟩, 1) :=
  ⟨claim_C5.1 fs6 ⟨["a"], ["t"], 0⟩ "a" 0 (by decide),
   (claim_C5.2.1 fs6 ⟨["a"], ["t"], 0⟩ "b" (by decide)).trans (by decide)⟩

/-- The filesystem at the C5 counterexample: `/tmp/../tmp/x` and `/tmp/x`
canonicalize (`Path.resolve()`) to the same file, which is readable. -/
def fs5 : FS :=
  { read := fun p => if p = "/tmp/x" ∨ p = "/tmp/../tmp/x" then some "hi" else none
    isDir := fun _ => false
    writeOk := fun _ => true
    resolve := fun p => if p = "/tmp/../tmp/x" then "/tmp/x" else p }

/-- C5 counterexample: `Path("/tmp/../tmp/x")` and `Path("/tmp/x")` have
the same canonicalized/absolute path but are distinct `Path` values
(pathlib does not collapse `..`), so opening the one after the other
yields two different indices and two documents — the claim predicts the
same index twice and a count of one. -/
theorem claim_C5_counterexample :
    fs5.resolve (mkPath "/tmp/../tmp/x") = fs5.resolve (mkPath "/tmp/x") ∧
    mkPath "/tmp/../tmp/x" ≠ mkPath "/tmp/x" ∧
    (open_file fs5 ⟨[], [], 0⟩ (mkPath "/tmp/x")).2 = 0 ∧
    (open_file fs5 (open_file fs5 ⟨[], [], 0⟩ (mkPath "/tmp/x")).1
      (mkPath "/tmp/../tmp/x")).2 = 1 ∧
    (open_file fs5 (open_file fs5 ⟨[], [], 0⟩ (mkPath "/tmp/x")).1
      (mkPath "/tmp/../tmp/x")).1.files.length = 2 := by
  refine ⟨by decide, by decide, by decide, by decide, by decide⟩

/-! ### Claim C9 -/

/-- The active-index invariant: whenever the document count is positive,
the active index is in range. -/
def activeOK (st : FMState) : Prop :=
  0 < st.files.length → st.active < st.files.length

/-- C9.  Every `FileManager` operation — restore-from-config, `open_file`,
`new_file`, `set_buffer`, `save_file`, `close_file` — preserves the
active-index invariant; and `close_file` on a valid index sets the new
active index to `max(0, index - 1)` when documents remain and to `0` when
the list becomes empty. -/
theorem claim_C9 :
    (∀ (fs : FS) (cfg : AppState), activeOK (restore_from_config fs cfg)) ∧
    (∀ (fs : FS) (st : FMState) (p : PyPath),
      activeOK st → activeOK (open_file fs st p).1) ∧
    (∀ st : FMState, activeOK (new_file st).1) ∧
    (∀ (st : FMState) (text : String) (i? : Option Int),
      activeOK st → activeOK (set_buffer st text i?)) ∧
    (∀ (fs : FS) (st : FMState) (p? : Option PyPath) (i? : Option Int),
      activeOK st → activeOK (save_file fs st p? i?).1) ∧
    (∀ (st : FMState) (i? : Option Int),
      activeOK st → activeOK (close_file st i?)) ∧
    (∀ (st : FMState) (i : Int), 0 ≤ i → i < (st.files.length : Int) →
      ((close_file st (some i)).files.length ≠ 0 →
        (close_file st (some i)).active = i.toNat - 1) ∧
      ((close_file st (some i)).files.length = 0 →
        (close_file st (some i)).active = 0)) := by
  refine ⟨?_, ?_, ?_, ?_, ?_, ?_, ?_⟩
  · -- restore_from_config
    intro fs cfg
    simp only [restore_from_config]
    split
    · intro _; decide
    · intro hpos
      dsimp only
      split
      · rename_i hcond
        simp only [List.length_map, List.length_range] at hpos hcond ⊢
        omega
      · simpa using hpos
  · -- open_file
    intro fs st p hok
    cases hidx : pyIndex st.files p with
    | some i =>
      simp only [open_file, hidx]
      intro _
      exact pyIndex_lt_length hidx
    | none =>
      simp only [open_file, hidx]
      intro _
      simp
  · -- new_file
    intro st
    intro _
    simp [new_file]
  · -- set_buffer
    intro st text i? hok
    simp only [set_buffer]
    split
    · exact hok
    · exact hok
  · -- save_file
    intro fs st p? i? hok
    simp only [save_file]
    split
    · exact hok
    · cases p? with
      | none =>
        dsimp only
        split_ifs <;> exact hok
      | some p =>
        dsimp only
        split_ifs <;>
          · intro hpos
            simp only [List.length_set] at hpos ⊢
            exact hok hpos
  · -- close_file
    intro st i? hok
    simp only [close_file]
    split
    · rename_i hcond
      intro hpos
      dsimp only at hpos ⊢
      split
      · exact hpos
      · have hlt : (i?.getD (st.active : Int)).toNat < st.files.length := by
          omega
        rw [List.length_eraseIdx, if_pos hlt] at hpos ⊢
        omega
    · exact hok
  · -- close_file active-index policy
    intro st i h0 hlen
    have hc : 0 ≤ i ∧ i < (st.files.length : Int) := ⟨h0, hlen⟩
    constructor
    · intro hne
      simp only [close_file, Option.getD_some, if_pos hc] at hne ⊢
      split
      · rename_i hemp
        rw [List.isEmpty_iff] at hemp
        rw [hemp] at hne
        simp at hne
      · rfl
    · intro hz
      simp only [close_file, Option.getD_some, if_pos hc] at hz ⊢
      split
      · rfl
      · rename_i hemp
        have hnil : st.files.eraseIdx i.toNat = [] := List.length_eq_zero.mp hz
        exact absurd (by rw [hnil]; rfl) hemp

/-- C9 witness: closing document 1 of a three-document session keeps the
invariant and moves the active index to 0 = max(0, 1-1). -/
theorem claim_C9_witness :
    activeOK (close_file ⟨["a", "b", "c"], ["x", "y", "z"], 2⟩ (some 1)) ∧
    (close_file ⟨["a", "b", "c"], ["x", "y", "z"], 2⟩ (some 1)).active = 0 :=
  ⟨claim_C9.2.2.2.2.2.1 ⟨["a", "b", "c"], ["x", "y", "z"], 2⟩ (some 1)
      (by intro _; decide),
   (claim_C9.2.2.2.2.2.2 ⟨["a", "b", "c"], ["x", "y", "z"], 2⟩ 1
      (by decide) (by decide)).1 (by decide)⟩

/-! ### Claim C8 -/

/-- C8 (amended).  An absent snapshot file, an unreadable or unparsable
one, a parsed value that is not a JSON object, and an object whose
`active_index` or `font_size` cannot be coerced by `int(...)` all yield —
with no error surfaced — the default state
`{files: [], activeIndex: 0, titles: [], buffers: [], fontSize: 12}`.
But a well-formed JSON object is absorbed field by field: `last_files`,
`titles` and `buffers` are stored verbatim even when their values violate
the snapshot schema, so such malformed content does NOT yield the default
state. -/
theorem claim_C8 :
    config_load none = defaultRaw ∧
    config_load (some none) = defaultRaw ∧
    defaultRaw = ⟨.arr [], 0, .arr [], .arr [], 12⟩ ∧
    (∀ j : J, isObj j = false → config_load (some (some j)) = defaultRaw) ∧
    (∀ d : List (String × J),
      pyToInt (dictGet d "active_index" (.n 0)) = none ∨
      pyToInt (dictGet d "font_size" (.n 12)) = none →
      config_load (some (some (.obj d))) = defaultRaw) ∧
    (∀ (d : List (String × J)) (ai fz : Int),
      pyToInt (dictGet d "active_index" (.n 0)) = some ai →
      pyToInt (dictGet d "font_size" (.n 12)) = some fz →
      config_load (some (some (.obj d))) =
        ⟨dictGet d "last_files" (.arr []), ai,
         dictGet d "titles" (.arr []), dictGet d "buffers" (.arr []), fz⟩) := by
  refine ⟨rfl, rfl, rfl, ?_, ?_, ?_⟩
  · intro j h
    cases j <;> simp [config_load, isObj] at h ⊢
  · intro d h
    rcases h with h | h
    · simp [config_load, h]
    · cases hai : pyToInt (dictGet d "active_index" (.n 0)) <;>
        simp [config_load, hai, h]
  · intro d ai fz h1 h2
    simp [config_load, h1, h2]

/-- C8 witness: a snapshot holding only a string-coded font size yields a
state with that font size and defaults elsewhere. -/
theorem claim_C8_witness :
    config_load (some (some (.obj [("font_size", .s "14")]))) =
      ⟨.arr [], 0, .arr [], .arr [], 14⟩ :=
  (claim_C8.2.2.2.2.2 [("font_size", .s "14")] 0 14 (by rfl) (by decide)).trans rfl

/-- C8 counterexample: the content `{"last_files": 5}` is structurally
malformed — `5` is not an array of strings — yet `load` yields a state
whose `last_files` is the number `5`, not the default empty list. -/
theorem claim_C8_counterexample :
    isStrArr (J.n 5) = false ∧
    (config_load (some (some (.obj [("last_files", .n 5)])))).last_files = .n 5 ∧
    defaultRaw.last_files = .arr [] ∧
    config_load (some (some (.obj [("last_files", .n 5)]))) ≠ defaultRaw := by
  refine ⟨rfl, rfl, rfl, ?_⟩
  intro h
  have h' := congrArg RawState.last_files h
  exact J.noConfusion h'

end Tood
